import Mathlib

/-!
Shallow embedding of `divolgin/release2chart` (pkg/helm/releases.go and
pkg/cli root command) for checking the repository's specification.

Bytes are modelled as `List Nat` with values below 256 where it matters.
External library calls (Kubernetes clientset/secret listing, gzip, JSON
unmarshalling of the release record, YAML marshalling, the Helm package
action, and the file system) are supplied by an `Env` record of oracles;
the control flow, label selection, error wrapping and file bookkeeping are
translated from the Go source.  Base64 (Go `encoding/base64` StdEncoding)
and Go's `json.Marshal` on a `[]byte` value are modelled concretely.
-/

namespace Release2Chart

abbrev Bytes := List Nat

/-- `errors.Wrap(err, ctx)` from github.com/pkg/errors: the resulting
message is `ctx ++ ": " ++ err`. -/
def wrapErr (ctx msg : String) : String := ctx ++ ": " ++ msg

/-! ### Base64 (model of Go `encoding/base64.StdEncoding`) -/

/-- The standard base64 alphabet: index `n < 64` to ASCII code. -/
def b64Char (n : Nat) : Nat :=
  if n < 26 then 65 + n
  else if n < 52 then 97 + (n - 26)
  else if n < 62 then 48 + (n - 52)
  else if n = 62 then 43
  else 47

/-- Inverse alphabet lookup: ASCII code to six-bit value. -/
def b64Val (c : Nat) : Option Nat :=
  if 65 ≤ c ∧ c ≤ 90 then some (c - 65)
  else if 97 ≤ c ∧ c ≤ 122 then some (c - 97 + 26)
  else if 48 ≤ c ∧ c ≤ 57 then some (c - 48 + 52)
  else if c = 43 then some 62
  else if c = 47 then some 63
  else none

/-- Standard base64 encoding with `=` (ASCII 61) padding, three input
bytes per four output characters. -/
def base64Encode : List Nat → List Nat
  | [] => []
  | [b1] => [b64Char (b1 / 4), b64Char (b1 % 4 * 16), 61, 61]
  | [b1, b2] => [b64Char (b1 / 4), b64Char (b1 % 4 * 16 + b2 / 16),
                 b64Char (b2 % 16 * 4), 61]
  | b1 :: b2 :: b3 :: rest =>
      b64Char (b1 / 4) :: b64Char (b1 % 4 * 16 + b2 / 16) ::
      b64Char (b2 % 16 * 4 + b3 / 64) :: b64Char (b3 % 64) :: base64Encode rest

/-- Standard base64 decoding, failing on data that is not a well formed
standard encoding.  (In the Go source the decoder is the stream wrapped
by `base64.NewDecoder`; decoding the whole payload up front is the same
function on complete inputs.) -/
def base64Decode : List Nat → Except String (List Nat)
  | [] => .ok []
  | c1 :: c2 :: c3 :: c4 :: rest =>
    match b64Val c1, b64Val c2 with
    | some v1, some v2 =>
      if c3 = 61 then
        if c4 = 61 ∧ rest = [] then .ok [v1 * 4 + v2 / 16]
        else .error "illegal base64 data"
      else
        match b64Val c3 with
        | some v3 =>
          if c4 = 61 then
            if rest = [] then .ok [v1 * 4 + v2 / 16, v2 % 16 * 16 + v3 / 4]
            else .error "illegal base64 data"
          else
            match b64Val c4 with
            | some v4 =>
              match base64Decode rest with
              | .ok tail =>
                  .ok ((v1 * 4 + v2 / 16) :: (v2 % 16 * 16 + v3 / 4) ::
                       (v3 % 4 * 64 + v4) :: tail)
              | .error e => .error e
            | none => .error "illegal base64 data"
        | none => .error "illegal base64 data"
    | _, _ => .error "illegal base64 data"
  | _ => .error "illegal base64 data"

theorem b64Val_b64Char_fin : ∀ v : Fin 64, b64Val (b64Char v.val) = some v.val := by
  decide

theorem b64Char_ne_pad_fin : ∀ v : Fin 64, b64Char v.val ≠ 61 := by
  decide

theorem b64Val_b64Char {v : Nat} (h : v < 64) : b64Val (b64Char v) = some v :=
  b64Val_b64Char_fin ⟨v, h⟩

theorem b64Char_ne_pad {v : Nat} (h : v < 64) : b64Char v ≠ 61 :=
  b64Char_ne_pad_fin ⟨v, h⟩

/-- Decoding inverts encoding on genuine byte strings. -/
theorem base64_decode_encode :
    ∀ bs : List Nat, (∀ b ∈ bs, b < 256) →
      base64Decode (base64Encode bs) = .ok bs
  | [], _ => rfl
  | [b1], h => by
      have hb1 : b1 < 256 := h b1 (by simp)
      have h1 : b1 / 4 < 64 := by omega
      have h2 : b1 % 4 * 16 < 64 := by omega
      simp only [base64Encode, base64Decode, b64Val_b64Char h1, b64Val_b64Char h2]
      simp only [if_pos rfl, and_self, if_pos]
      have : b1 / 4 * 4 + b1 % 4 * 16 / 16 = b1 := by omega
      rw [this]
  | [b1, b2], h => by
      have hb1 : b1 < 256 := h b1 (by simp)
      have hb2 : b2 < 256 := h b2 (by simp)
      have h1 : b1 / 4 < 64 := by omega
      have h2 : b1 % 4 * 16 + b2 / 16 < 64 := by omega
      have h3 : b2 % 16 * 4 < 64 := by omega
      simp only [base64Encode, base64Decode, b64Val_b64Char h1, b64Val_b64Char h2,
        b64Val_b64Char h3, if_neg (b64Char_ne_pad h3)]
      have e1 : b1 / 4 * 4 + (b1 % 4 * 16 + b2 / 16) / 16 = b1 := by omega
      have e2 : (b1 % 4 * 16 + b2 / 16) % 16 * 16 + b2 % 16 * 4 / 4 = b2 := by omega
      rw [e1, e2]
      simp
  | b1 :: b2 :: b3 :: r1 :: rest, h => by
      have hb1 : b1 < 256 := h b1 (by simp)
      have hb2 : b2 < 256 := h b2 (by simp)
      have hb3 : b3 < 256 := h b3 (by simp)
      have h1 : b1 / 4 < 64 := by omega
      have h2 : b1 % 4 * 16 + b2 / 16 < 64 := by omega
      have h3 : b2 % 16 * 4 + b3 / 64 < 64 := by omega
      have h4 : b3 % 64 < 64 := by omega
      have ih := base64_decode_encode (r1 :: rest)
        (fun b hb => h b (List.mem_cons_of_mem _ (List.mem_cons_of_mem _
          (List.mem_cons_of_mem _ hb))))
      simp only [base64Encode, base64Decode, b64Val_b64Char h1, b64Val_b64Char h2,
        b64Val_b64Char h3, b64Val_b64Char h4, if_neg (b64Char_ne_pad h3),
        if_neg (b64Char_ne_pad h4)]
      rw [ih]
      have e1 : b1 / 4 * 4 + (b1 % 4 * 16 + b2 / 16) / 16 = b1 := by omega
      have e2 : (b1 % 4 * 16 + b2 / 16) % 16 * 16 + (b2 % 16 * 4 + b3 / 64) / 4 = b2 := by
        omega
      have e3 : (b2 % 16 * 4 + b3 / 64) % 4 * 64 + b3 % 64 = b3 := by omega
      rw [e1, e2, e3]
  | [b1, b2, b3], h => by
      have hb1 : b1 < 256 := h b1 (by simp)
      have hb2 : b2 < 256 := h b2 (by simp)
      have hb3 : b3 < 256 := h b3 (by simp)
      have h1 : b1 / 4 < 64 := by omega
      have h2 : b1 % 4 * 16 + b2 / 16 < 64 := by omega
      have h3 : b2 % 16 * 4 + b3 / 64 < 64 := by omega
      have h4 : b3 % 64 < 64 := by omega
      simp only [base64Encode, base64Decode, b64Val_b64Char h1, b64Val_b64Char h2,
        b64Val_b64Char h3, b64Val_b64Char h4, if_neg (b64Char_ne_pad h3),
        if_neg (b64Char_ne_pad h4)]
      have e1 : b1 / 4 * 4 + (b1 % 4 * 16 + b2 / 16) / 16 = b1 := by omega
      have e2 : (b1 % 4 * 16 + b2 / 16) % 16 * 16 + (b2 % 16 * 4 + b3 / 64) / 4 = b2 := by
        omega
      have e3 : (b2 % 16 * 4 + b3 / 64) % 4 * 64 + b3 % 64 = b3 := by omega
      rw [e1, e2, e3]

/-! ### strconv.Atoi (model of Go `strconv.Atoi`) -/

def parseDigitsAux : List Char → Nat → Option Nat
  | [], acc => some acc
  | c :: t, acc =>
    if '0' ≤ c ∧ c ≤ '9' then parseDigitsAux t (acc * 10 + (c.toNat - 48))
    else none

/-- All characters must be decimal digits and there must be at least one. -/
def parseDigits : List Char → Option Nat
  | [] => none
  | cs => parseDigitsAux cs 0

/-- Go `strconv.Atoi`: optional sign, decimal digits, 64-bit range check.
A parse or range error makes Atoi return a non-nil error; both callers in
the source only test `err != nil`, so the model returns `none` there. -/
def goAtoi (s : String) : Option Int :=
  match s.toList with
  | [] => none
  | cs =>
    let signDigits : Bool × List Char :=
      match cs with
      | '+' :: t => (false, t)
      | '-' :: t => (true, t)
      | t => (false, t)
    match parseDigits signDigits.2 with
    | none => none
    | some n =>
      let v : Int := if signDigits.1 then -(n : Int) else (n : Int)
      if v < -(2 ^ 63) ∨ v > 2 ^ 63 - 1 then none else some v

/-! ### filepath helpers (models of Go `path/filepath`) -/

/-- Go `filepath.Base`: strip trailing separators and return the last path
element; the empty path gives `"."` and an all-separator path gives `"/"`. -/
def filepathBase (path : String) : String :=
  if path = "" then "."
  else
    let cs := path.toList.reverse.dropWhile (fun c => c = '/')
    if cs = [] then "/"
    else String.mk (cs.takeWhile (fun c => c ≠ '/')).reverse

/-- Go `filepath.Join(dir, name)` for the already-clean inputs this program
produces: `Join` cleans its result, so `Join(".", name)` is `name`. -/
def filepathJoin (dir name : String) : String :=
  if dir = "." then name else dir ++ "/" ++ name

/-- Go `filepath.Dir` for the relative or rooted non-root paths this
program produces: everything before the last path element, `"."` when the
path has a single element. -/
def filepathDir (path : String) : String :=
  let cs := path.toList.reverse.dropWhile (fun c => c ≠ '/')
  let cs := cs.dropWhile (fun c => c = '/')
  if cs = [] then "." else String.mk cs.reverse

/-! ### Data model (helm.sh/helm/v3 release and chart records, the fields
this program reads; a Kubernetes secret's labels and data) -/

structure HFile where
  Name : String
  Data : Bytes
deriving DecidableEq

/-- `chart.Metadata`: the program only ever passes it whole to
`yaml.Marshal`, so only representative identifying fields are kept. -/
structure Metadata where
  Name : String
  Version : String
deriving DecidableEq

/-- Dynamic YAML maps (`map[string]interface{}`) are modelled as string
association lists; the program only tests emptiness and marshals them. -/
abbrev KVMap := List (String × String)

structure HChart where
  Metadata : Metadata
  Templates : List HFile
  Values : KVMap
  Schema : Option Bytes
  Files : List HFile
deriving DecidableEq

structure HRelease where
  Name : String
  Chart : HChart
  Config : KVMap
  Version : Int
  Namespace : String
deriving DecidableEq

structure Secret where
  Labels : KVMap
  Data : List (String × Bytes)
deriving DecidableEq

def emptySecret : Secret := ⟨[], []⟩

/-- Go map read `secret.Labels[k]`: the zero value `""` when missing. -/
def labelGet (s : Secret) (k : String) : String :=
  (s.Labels.lookup k).getD ""

/-- Go map read `secret.Data[k]`: nil (empty bytes) when missing. -/
def dataGet (s : Secret) (k : String) : Bytes :=
  (s.Data.lookup k).getD []

/-- `labels.SelectorFromSet(set).Matches`: every selector key must be
present on the secret with exactly the selector's value. -/
def matchesSelector (sel : KVMap) (s : Secret) : Bool :=
  sel.all fun kv =>
    match s.Labels.lookup kv.1 with
    | some v => v == kv.2
    | none => false

/-- Outcome of the gzip stage: `gzip.NewReader` can fail on the header,
`ioutil.ReadAll` on the body, and otherwise the decompressed bytes. -/
inductive GzResult where
  | headerErr (e : String)
  | readErr (e : String)
  | ok (b : Bytes)
deriving DecidableEq

/-- Oracles for the external systems the program calls: the Kubernetes
clientset and secret listing (per namespace), gzip, JSON unmarshalling of
the release record, YAML marshalling, the temp dir, the file system and
the Helm package action (which on success writes the archive into its
destination directory and returns its path). -/
structure Env where
  getClientset : Except String Unit
  nsSecrets : String → Except String (List Secret)
  gunzip : Bytes → GzResult
  jsonUnmarshalRelease : Bytes → Except String HRelease
  tempDir : Except String String
  mkdirAll : String → Except String Unit
  writeFile : String → Except String Unit
  yamlMarshalMeta : Metadata → Except String Bytes
  yamlMarshalKV : KVMap → Except String Bytes
  packageRun : String → Except String (String × Bytes)

/-- Go `json.Marshal` applied to the `[]byte` field `Chart.Schema`:
nil marshals to `null`, otherwise to the quoted standard-base64 string of
the bytes.  (This call cannot fail, so the source's error branch is dead.) -/
def goJsonMarshalBytes : Option Bytes → Bytes
  | none => [110, 117, 108, 108]
  | some bs => 34 :: (base64Encode bs ++ [34])

/-! ### pkg/helm/releases.go -/

/-- The scan loop of `FindLatestReleaseVersion`: start from 0, skip
secrets whose "version" label does not parse, keep the largest value. -/
def scanLatest : List Secret → Int → Int
  | [], latest => latest
  | secret :: rest, latest =>
    match goAtoi (labelGet secret "version") with
    | none => scanLatest rest latest
    | some revision =>
        scanLatest rest (if revision > latest then revision else latest)

/-- The `selectorLabels` local of `FindLatestReleaseVersion`. -/
def findSelectorLabels (releaseName : String) : KVMap :=
  [("owner", "helm"), ("name", releaseName)]

def FindLatestReleaseVersion (env : Env) (ns releaseName : String) :
    Except String Int :=
  match env.getClientset with
  | .error e => .error (wrapErr "get clientset" e)
  | .ok _ =>
  match env.nsSecrets ns with
  | .error e => .error (wrapErr "list secrets" e)
  | .ok all =>
    let items := all.filter (matchesSelector (findSelectorLabels releaseName))
    .ok (scanLatest items 0)

def helmReleaseFromReleaseData (env : Env) (data : Bytes) :
    Except String HRelease :=
  match base64Decode data with
  | .error e => .error (wrapErr "create gzip reader" e)
  | .ok raw =>
  match env.gunzip raw with
  | .headerErr e => .error (wrapErr "create gzip reader" e)
  | .readErr e => .error (wrapErr "read from gzip reader" e)
  | .ok releaseData =>
  match env.jsonUnmarshalRelease releaseData with
  | .error e => .error (wrapErr "unmarshal release data" e)
  | .ok release => .ok release

/-- The write loop at the end of `saveReleaseToFiles`: join each name onto
the destination directory, create the parent directory, write the bytes.
Returns the performed writes as (path, data) pairs. -/
def writeChartFiles (env : Env) (destDir : String) :
    List (String × Bytes) → Except String (List (String × Bytes))
  | [] => .ok []
  | (name, data) :: rest =>
    let fileName := filepathJoin destDir name
    match env.mkdirAll (filepathDir fileName) with
    | .error e => .error (wrapErr ("create dir " ++ filepathDir fileName) e)
    | .ok _ =>
    match env.writeFile fileName with
    | .error e => .error (wrapErr ("write file " ++ fileName) e)
    | .ok _ =>
    match writeChartFiles env destDir rest with
    | .error e => .error e
    | .ok ws => .ok ((fileName, data) :: ws)

def saveReleaseToFiles (env : Env) (release : HRelease) (destDir : String) :
    Except String (List (String × Bytes)) :=
  let files :=
    (release.Chart.Files.map fun f => (f.Name, f.Data))
    ++ (release.Chart.Templates.map fun t => (t.Name, t.Data))
  match env.yamlMarshalMeta release.Chart.Metadata with
  | .error e => .error (wrapErr "marshal chart metadata" e)
  | .ok chartMetadata =>
  match env.yamlMarshalKV release.Chart.Values with
  | .error e => .error (wrapErr "marshal chart values" e)
  | .ok chartValues =>
  let chartValuesSchema := goJsonMarshalBytes release.Chart.Schema
  writeChartFiles env destDir
    (files ++ [("Chart.yaml", chartMetadata), ("values.yaml", chartValues),
               ("values.schema.json", chartValuesSchema)])

/-- The observable outcome of `ConvertReleaseVersion`: the returned
(chart file, values file, error) triple, the files left in the current
working directory, and whether the temporary release directory was
created and removed again (the `defer os.RemoveAll`). -/
structure ConvertResult where
  ret : Except String (String × String)
  cwd : List (String × Bytes)
  tempCreated : Bool
  tempRemoved : Bool

/-- The `selectorLabels` local of `ConvertReleaseVersion`: `strconv.Itoa`
of the revision is decimal `toString`. -/
def convertSelectorLabels (releaseName : String) (revision : Int) : KVMap :=
  [("owner", "helm"), ("name", releaseName), ("version", toString revision)]

def ConvertReleaseVersion (env : Env) (ns releaseName : String)
    (revision : Int) : ConvertResult :=
  let dstDir := "."
  match env.getClientset with
  | .error e => ⟨.error (wrapErr "get clientset" e), [], false, false⟩
  | .ok _ =>
  match env.nsSecrets ns with
  | .error e => ⟨.error (wrapErr "list secrets" e), [], false, false⟩
  | .ok all =>
  let items := all.filter (matchesSelector (convertSelectorLabels releaseName revision))
  if items.length ≠ 1 then
    ⟨.error ("found " ++ toString items.length ++ " matching releases"),
     [], false, false⟩
  else
  match helmReleaseFromReleaseData env (dataGet (items.headD emptySecret) "release") with
  | .error e => ⟨.error (wrapErr "parse release info from secret" e), [], false, false⟩
  | .ok helmRelease =>
  match env.tempDir with
  | .error e => ⟨.error (wrapErr "create temp dir" e), [], false, false⟩
  | .ok releaseDir =>
  match saveReleaseToFiles env helmRelease releaseDir with
  | .error e => ⟨.error (wrapErr "save release to files" e), [], true, true⟩
  | .ok _ =>
  match env.packageRun releaseDir with
  | .error e => ⟨.error (wrapErr "package client run" e), [], true, true⟩
  | .ok (chartFile, archive) =>
  if helmRelease.Config.length ≠ 0 then
    let valuesFile := filepathJoin dstDir "values.yaml"
    match env.yamlMarshalKV helmRelease.Config with
    | .error e =>
        ⟨.error (wrapErr "marshal config data" e), [(chartFile, archive)], true, true⟩
    | .ok configData =>
    match env.writeFile valuesFile with
    | .error e =>
        ⟨.error (wrapErr "write values file" e), [(chartFile, archive)], true, true⟩
    | .ok _ =>
        ⟨.ok (filepathBase chartFile, filepathBase valuesFile),
         [(chartFile, archive), (valuesFile, configData)], true, true⟩
  else
    ⟨.ok (filepathBase chartFile, filepathBase ""), [(chartFile, archive)], true, true⟩

/-! ### pkg/cli root command -/

/-- The cobra `RunE` body: resolve the revision (explicit flag or latest),
then convert, wrapping each failure with its context. -/
def runRootCmd (env : Env) (args : List String)
    (namespaceFlag revisionFlag : String) : Except String (String × String) :=
  match args with
  | [] => .error "release name is required"
  | releaseName :: _ =>
    let revisionE : Except String Int :=
      if revisionFlag ≠ "" then
        match goAtoi revisionFlag with
        | none => .error (wrapErr "parse revision" "invalid syntax")
        | some r => .ok r
      else
        match FindLatestReleaseVersion env namespaceFlag releaseName with
        | .error e => .error (wrapErr "find latest revision" e)
        | .ok r => .ok r
    match revisionE with
    | .error e => .error e
    | .ok revision =>
      match (ConvertReleaseVersion env namespaceFlag releaseName revision).ret with
      | .error e => .error (wrapErr "convert release" e)
      | .ok out => .ok out

/-- `InitAndExecute`: a failing `Execute` makes the process exit with
status 1; otherwise it finishes with status 0. -/
def InitAndExecute (env : Env) (args : List String)
    (namespaceFlag revisionFlag : String) : Nat :=
  match runRootCmd env args namespaceFlag revisionFlag with
  | .error _ => 1
  | .ok _ => 0

/-! ### Concrete fixtures used by witnesses and counterexamples -/

def chartA : HChart :=
  { Metadata := ⟨"mychart", "0.1.0"⟩
    Templates := [⟨"templates/t.yaml", [8]⟩]
    Values := [("v", "1")]
    Schema := none
    Files := [⟨"d.txt", [7]⟩] }

def relEmptyCfg : HRelease :=
  { Name := "myrel", Chart := chartA, Config := [], Version := 1,
    Namespace := "default" }

def relCfg : HRelease := { relEmptyCfg with Config := [("c", "2")] }

/-- A release whose original chart carried a values.schema.json with the
two bytes `{}` (123, 125); the Helm loader stores those raw bytes in
`Chart.Schema`. -/
def relSchema : HRelease :=
  { relEmptyCfg with Chart := { chartA with Schema := some [123, 125] } }

def sec1 : Secret :=
  ⟨[("owner", "helm"), ("name", "myrel"), ("version", "1")], [("release", [])]⟩

/-- An environment in which every external call succeeds and the stored
release record decodes to `rel`. -/
def baseEnv (rel : HRelease) : Env :=
  { getClientset := .ok ()
    nsSecrets := fun _ => .ok [sec1]
    gunzip := fun b => .ok b
    jsonUnmarshalRelease := fun _ => .ok rel
    tempDir := .ok "/tmp/helm-release-1"
    mkdirAll := fun _ => .ok ()
    writeFile := fun _ => .ok ()
    yamlMarshalMeta := fun _ => .ok [109]
    yamlMarshalKV := fun _ => .ok [118]
    packageRun := fun _ => .ok ("mychart-0.1.0.tgz", [9, 9]) }

/-! ### Helper lemmas -/

/-- The scan loop computes a running fold of the binary maximum over the
parsable "version" labels. -/
theorem scanLatest_eq_foldMax :
    ∀ (items : List Secret) (acc : Int),
      scanLatest items acc
        = ((items.filterMap fun s => goAtoi (labelGet s "version")).foldl max acc)
  | [], _ => rfl
  | s :: rest, acc => by
    cases hg : goAtoi (labelGet s "version") with
    | none =>
        simp only [scanLatest, List.filterMap_cons, hg]
        exact scanLatest_eq_foldMax rest acc
    | some v =>
        simp only [scanLatest, List.filterMap_cons, hg, List.foldl_cons]
        have hif : (if v > acc then v else acc) = max acc v := by
          rcases le_or_lt v acc with hle | hlt
          · rw [if_neg (by omega), max_eq_left hle]
          · rw [if_pos hlt, max_eq_right hlt.le]
        rw [hif]
        exact scanLatest_eq_foldMax rest (max acc v)

/-- If no parsable version label is positive, the scan stays at 0. -/
theorem scanLatest_nonpos :
    ∀ items : List Secret,
      (∀ s ∈ items, ∀ n : Int, goAtoi (labelGet s "version") = some n → n ≤ 0) →
      scanLatest items 0 = 0
  | [], _ => rfl
  | s :: rest, h => by
    cases hg : goAtoi (labelGet s "version") with
    | none =>
        simp only [scanLatest, hg]
        exact scanLatest_nonpos rest fun t ht n hn => h t (List.mem_cons_of_mem _ ht) n hn
    | some v =>
        have hv : v ≤ 0 := h s (List.mem_cons_self _ _) v hg
        have hif : (if v > (0 : Int) then v else (0 : Int)) = 0 := by
          rw [if_neg (by omega)]
        simp only [scanLatest, hg, hif]
        exact scanLatest_nonpos rest fun t ht n hn => h t (List.mem_cons_of_mem _ ht) n hn

/-- A successful write loop writes exactly the given files, each joined
onto the destination directory with its own data. -/
theorem writeChartFiles_ok (env : Env) (destDir : String) :
    ∀ (fs : List (String × Bytes)) (ws : List (String × Bytes)),
      writeChartFiles env destDir fs = .ok ws →
      ws = fs.map fun p => (filepathJoin destDir p.1, p.2)
  | [], ws, h => by
      simp only [writeChartFiles] at h
      cases h
      rfl
  | (name, data) :: rest, ws, h => by
      simp only [writeChartFiles] at h
      cases hm : env.mkdirAll (filepathDir (filepathJoin destDir name)) with
      | error e => rw [hm] at h; exact absurd h (by simp)
      | ok u =>
        rw [hm] at h
        cases hw : env.writeFile (filepathJoin destDir name) with
        | error e => rw [hw] at h; exact absurd h (by simp)
        | ok u2 =>
          rw [hw] at h
          cases hr : writeChartFiles env destDir rest with
          | error e => rw [hr] at h; exact absurd h (by simp)
          | ok ws2 =>
            rw [hr] at h
            cases h
            simpa using writeChartFiles_ok env destDir rest ws2 hr

/-- Exhaustive outcome shapes of `ConvertReleaseVersion`: failures before
the temp dir leave nothing behind; failures after it are cleaned up; the
only error outcomes with a file already in the working directory are the
values-file marshal and write failures, which leave exactly the chart
archive; success leaves the archive first in the working directory. -/
theorem convertShapes (env : Env) (ns rn : String) (rev : Int) :
    (∃ msg, ConvertReleaseVersion env ns rn rev = ⟨.error msg, [], false, false⟩)
    ∨ (∃ msg, ConvertReleaseVersion env ns rn rev = ⟨.error msg, [], true, true⟩)
    ∨ (∃ e p a, ConvertReleaseVersion env ns rn rev
          = ⟨.error (wrapErr "marshal config data" e), [(p, a)], true, true⟩)
    ∨ (∃ e p a, ConvertReleaseVersion env ns rn rev
          = ⟨.error (wrapErr "write values file" e), [(p, a)], true, true⟩)
    ∨ (∃ c v p a rest, ConvertReleaseVersion env ns rn rev
          = ⟨.ok (c, v), (p, a) :: rest, true, true⟩) := by
  cases hc : env.getClientset with
  | error e =>
      refine Or.inl ⟨wrapErr "get clientset" e, ?_⟩
      simp only [ConvertReleaseVersion, hc]
  | ok u =>
  cases hl : env.nsSecrets ns with
  | error e =>
      refine Or.inl ⟨wrapErr "list secrets" e, ?_⟩
      simp only [ConvertReleaseVersion, hc, hl]
  | ok all =>
  by_cases hn :
      (all.filter (matchesSelector (convertSelectorLabels rn rev))).length ≠ 1
  · refine Or.inl ⟨"found " ++ toString (all.filter
        (matchesSelector (convertSelectorLabels rn rev))).length
        ++ " matching releases", ?_⟩
    simp only [ConvertReleaseVersion, hc, hl, if_pos hn]
  · cases hd : helmReleaseFromReleaseData env
        (dataGet ((all.filter
          (matchesSelector (convertSelectorLabels rn rev))).headD emptySecret)
          "release") with
    | error e =>
        refine Or.inl ⟨wrapErr "parse release info from secret" e, ?_⟩
        simp only [ConvertReleaseVersion, hc, hl, if_neg hn, hd]
    | ok hr =>
    cases ht : env.tempDir with
    | error e =>
        refine Or.inl ⟨wrapErr "create temp dir" e, ?_⟩
        simp only [ConvertReleaseVersion, hc, hl, if_neg hn, hd, ht]
    | ok releaseDir =>
    cases hs : saveReleaseToFiles env hr releaseDir with
    | error e =>
        refine Or.inr (Or.inl ⟨wrapErr "save release to files" e, ?_⟩)
        simp only [ConvertReleaseVersion, hc, hl, if_neg hn, hd, ht, hs]
    | ok ws =>
    cases hp : env.packageRun releaseDir with
    | error e =>
        refine Or.inr (Or.inl ⟨wrapErr "package client run" e, ?_⟩)
        simp only [ConvertReleaseVersion, hc, hl, if_neg hn, hd, ht, hs, hp]
    | ok pair =>
    obtain ⟨chartFile, archive⟩ := pair
    by_cases hcfg : hr.Config.length ≠ 0
    · cases hm : env.yamlMarshalKV hr.Config with
      | error e =>
          refine Or.inr (Or.inr (Or.inl ⟨e, chartFile, archive, ?_⟩))
          simp only [ConvertReleaseVersion, hc, hl, if_neg hn, hd, ht, hs, hp,
            if_pos hcfg, hm]
      | ok configData =>
      cases hw : env.writeFile (filepathJoin "." "values.yaml") with
      | error e =>
          refine Or.inr (Or.inr (Or.inr (Or.inl ⟨e, chartFile, archive, ?_⟩)))
          simp only [ConvertReleaseVersion, hc, hl, if_neg hn, hd, ht, hs, hp,
            if_pos hcfg, hm, hw]
      | ok u2 =>
          refine Or.inr (Or.inr (Or.inr (Or.inr
            ⟨filepathBase chartFile, filepathBase (filepathJoin "." "values.yaml"),
             chartFile, archive, [(filepathJoin "." "values.yaml", configData)], ?_⟩)))
          simp only [ConvertReleaseVersion, hc, hl, if_neg hn, hd, ht, hs, hp,
            if_pos hcfg, hm, hw]
    · refine Or.inr (Or.inr (Or.inr (Or.inr
        ⟨filepathBase chartFile, filepathBase "", chartFile, archive, [], ?_⟩)))
      simp only [ConvertReleaseVersion, hc, hl, if_neg hn, hd, ht, hs, hp,
        if_neg hcfg]

/-! ### Fixtures for C3 and C9 -/

/-- A matching secret whose version label parses to the negative value -3. -/
def secNeg : Secret :=
  ⟨[("owner", "helm"), ("name", "myrel"), ("version", "-3")], []⟩

def env3 : Env := { baseEnv relCfg with nsSecrets := fun _ => .ok [secNeg] }

/-- A matching secret whose version label does not parse as an integer. -/
def secBad : Secret :=
  ⟨[("owner", "helm"), ("name", "myrel"), ("version", "abc")], []⟩

/-- A matching secret with no version label at all. -/
def secNoVer : Secret := ⟨[("owner", "helm"), ("name", "myrel")], []⟩

def env9 : Env := { baseEnv relCfg with nsSecrets := fun _ => .ok [secBad, secNoVer] }

/-! ### Claim theorems -/

/-- C1: the claim asserts that the materialized tree matches the original
chart byte-for-byte, including values.schema.json.  The code instead
writes `json.Marshal(Chart.Schema)`; on the `[]byte` schema field this
produces the quoted base64 string of the stored bytes.  Evaluating
`saveReleaseToFiles` on a release whose original values.schema.json was
the two bytes `{}` (123, 125): files and templates keep their bytes, but
values.schema.json is written as `"e30="` (34,101,51,48,61,34), not as
the original 123,125. -/
theorem C1_values_schema_not_byte_for_byte :
    saveReleaseToFiles (baseEnv relEmptyCfg) relSchema "/tmp/helm-release-1"
      = .ok [("/tmp/helm-release-1/d.txt", [7]),
             ("/tmp/helm-release-1/templates/t.yaml", [8]),
             ("/tmp/helm-release-1/Chart.yaml", [109]),
             ("/tmp/helm-release-1/values.yaml", [118]),
             ("/tmp/helm-release-1/values.schema.json", [34, 101, 51, 48, 61, 34])]
    ∧ relSchema.Chart.Schema = some [123, 125]
    ∧ [34, 101, 51, 48, 61, 34] ≠ [123, 125] :=
  ⟨rfl, rfl, by decide⟩

/-- C2: when the label selector for owner/name/version matches a number of
secrets different from one, `ConvertReleaseVersion` fails with an error
reporting that count, writes nothing to the working directory and never
creates the temporary directory. -/
theorem C2_fails_unless_exactly_one_match (env : Env) (ns rn : String)
    (rev : Int) (l : List Secret)
    (hcs : env.getClientset = .ok ())
    (hls : env.nsSecrets ns = .ok l)
    (hn : (l.filter (matchesSelector (convertSelectorLabels rn rev))).length ≠ 1) :
    (ConvertReleaseVersion env ns rn rev).ret
      = .error ("found "
          ++ toString (l.filter (matchesSelector (convertSelectorLabels rn rev))).length
          ++ " matching releases")
    ∧ (ConvertReleaseVersion env ns rn rev).cwd = []
    ∧ (ConvertReleaseVersion env ns rn rev).tempCreated = false := by
  simp only [ConvertReleaseVersion, hcs, hls, if_pos hn]
  exact ⟨trivial, trivial, trivial⟩

def envNoMatch : Env := { baseEnv relCfg with nsSecrets := fun _ => .ok [] }

/-- Witness for C2 at a store with zero matching secrets. -/
theorem C2_fails_unless_exactly_one_match_witness :
    envNoMatch.getClientset = .ok ()
    ∧ envNoMatch.nsSecrets "default" = .ok []
    ∧ (([] : List Secret).filter
        (matchesSelector (convertSelectorLabels "myrel" 1))).length ≠ 1
    ∧ (ConvertReleaseVersion envNoMatch "default" "myrel" 1).ret
        = .error "found 0 matching releases"
    ∧ (ConvertReleaseVersion envNoMatch "default" "myrel" 1).cwd = [] :=
  ⟨rfl, rfl, by decide,
   (C2_fails_unless_exactly_one_match envNoMatch "default" "myrel" 1 [] rfl rfl
      (by decide)).1,
   (C2_fails_unless_exactly_one_match envNoMatch "default" "myrel" 1 [] rfl rfl
      (by decide)).2.1⟩

/-- C3 counterexample: one matching secret carries the version label "-3",
so the maximum integer value found among the version labels is -3, but
`FindLatestReleaseVersion` returns 0. -/
theorem C3_counterexample_negative_version :
    FindLatestReleaseVersion env3 "default" "myrel" = .ok 0
    ∧ (([secNeg].filter (matchesSelector (findSelectorLabels "myrel"))).filterMap
        fun s => goAtoi (labelGet s "version")) = [-3]
    ∧ (0 : Int) ≠ -3 :=
  ⟨rfl, rfl, by decide⟩

/-- C3 amended: `FindLatestReleaseVersion` returns the fold of the binary
maximum, started at 0, over the integers parsed from the matching
secrets' version labels (a single linear scan); labels that fail to parse
are skipped, and a nonpositive maximum is reported as 0. -/
theorem C3_returns_fold_max_from_zero (env : Env) (ns rn : String)
    (l : List Secret)
    (hcs : env.getClientset = .ok ())
    (hls : env.nsSecrets ns = .ok l) :
    FindLatestReleaseVersion env ns rn
      = .ok (((l.filter (matchesSelector (findSelectorLabels rn))).filterMap
          fun s => goAtoi (labelGet s "version")).foldl max 0) := by
  simp only [FindLatestReleaseVersion, hcs, hls]
  rw [scanLatest_eq_foldMax]

/-- Witness for the amended C3 at the store holding the "-3" secret. -/
theorem C3_returns_fold_max_from_zero_witness :
    env3.getClientset = .ok ()
    ∧ env3.nsSecrets "default" = .ok [secNeg]
    ∧ FindLatestReleaseVersion env3 "default" "myrel"
        = .ok ((([secNeg].filter (matchesSelector (findSelectorLabels "myrel"))).filterMap
            fun s => goAtoi (labelGet s "version")).foldl max 0) :=
  ⟨rfl, rfl, C3_returns_fold_max_from_zero env3 "default" "myrel" [secNeg] rfl rfl⟩

/-- C4: for any serialization of a release record, if the stored data is
the standard-base64 encoding of the gzip compression of the JSON
serialization of `r`, then `helmReleaseFromReleaseData` succeeds and
returns `r`: the three decoding stages run in order base64, gzip, JSON
and each inverts its encoder. -/
theorem C4_decode_roundtrip (env : Env) (gz : Bytes → Bytes)
    (jm : HRelease → Bytes) (r : HRelease)
    (hbytes : ∀ b ∈ gz (jm r), b < 256)
    (hgz : env.gunzip (gz (jm r)) = GzResult.ok (jm r))
    (hjson : env.jsonUnmarshalRelease (jm r) = .ok r) :
    helmReleaseFromReleaseData env (base64Encode (gz (jm r))) = .ok r := by
  simp only [helmReleaseFromReleaseData, base64_decode_encode _ hbytes, hgz, hjson]

/-- Witness for C4 with the identity gzip model and a constant JSON model
at the concrete release `relEmptyCfg`. -/
theorem C4_decode_roundtrip_witness :
    (∀ b ∈ ([] : Bytes), b < 256)
    ∧ (baseEnv relEmptyCfg).gunzip [] = GzResult.ok []
    ∧ (baseEnv relEmptyCfg).jsonUnmarshalRelease [] = .ok relEmptyCfg
    ∧ helmReleaseFromReleaseData (baseEnv relEmptyCfg) (base64Encode [])
        = .ok relEmptyCfg :=
  ⟨by simp, rfl, rfl,
   C4_decode_roundtrip (baseEnv relEmptyCfg) id (fun _ => []) relEmptyCfg
     (by simp) rfl rfl⟩

/-- C5: evaluating `ConvertReleaseVersion` on a successful conversion of a
release with empty override values: the chart archive is the only file
written to the working directory and no values file is written, but the
returned values-file name is "." (because `filepath.Base("")` is "."),
not the empty string the claim and the CLI's `valuesFile != ""` check
expect. -/
theorem C5_empty_config_returns_dot :
    (ConvertReleaseVersion (baseEnv relEmptyCfg) "default" "myrel" 1).ret
      = .ok ("mychart-0.1.0.tgz", ".")
    ∧ (ConvertReleaseVersion (baseEnv relEmptyCfg) "default" "myrel" 1).cwd
      = [("mychart-0.1.0.tgz", [9, 9])]
    ∧ ("." : String) ≠ "" :=
  ⟨rfl, rfl, by decide⟩

/-! ### Fixtures for C6 -/

/-- Everything succeeds except marshalling the override values: the chart
values [("v","1")] marshal fine, the config [("c","2")] does not. -/
def env6 : Env :=
  { baseEnv relCfg with
    yamlMarshalKV := fun kv => if kv = [("c", "2")] then .error "boom" else .ok [118] }

def envCsFail : Env := { baseEnv relCfg with getClientset := .error "boom" }

/-- C6 counterexample: packaging has already written the chart archive to
the working directory when marshalling the override values fails, so
`ConvertReleaseVersion` returns an error yet the archive remains. -/
theorem C6_counterexample_archive_left_behind :
    (ConvertReleaseVersion env6 "default" "myrel" 1).ret
      = .error "marshal config data: boom"
    ∧ (ConvertReleaseVersion env6 "default" "myrel" 1).cwd
      = [("mychart-0.1.0.tgz", [9, 9])]
    ∧ [(("mychart-0.1.0.tgz" : String), ([9, 9] : Bytes))] ≠ [] :=
  ⟨rfl, rfl, by decide⟩

/-- C6 amended: every failure up to and including packaging leaves no
output in the working directory; only a failure to marshal or write the
values file, which can happen only after packaging succeeded, returns an
error while leaving exactly the chart archive behind. -/
theorem C6_no_partial_output_before_values_stage (env : Env) (ns rn : String)
    (rev : Int) (e : String)
    (h : (ConvertReleaseVersion env ns rn rev).ret = .error e) :
    (ConvertReleaseVersion env ns rn rev).cwd = []
    ∨ ∃ e', (e = wrapErr "marshal config data" e'
              ∨ e = wrapErr "write values file" e')
        ∧ ∃ p a, (ConvertReleaseVersion env ns rn rev).cwd = [(p, a)] := by
  rcases convertShapes env ns rn rev with
    ⟨msg, hE⟩ | ⟨msg, hE⟩ | ⟨e', p, a, hE⟩ | ⟨e', p, a, hE⟩ | ⟨c, v, p, a, rest, hE⟩
  · rw [hE]
    exact Or.inl rfl
  · rw [hE]
    exact Or.inl rfl
  · rw [hE] at h
    injection h with h2
    exact Or.inr ⟨e', Or.inl h2.symm, p, a, by rw [hE]⟩
  · rw [hE] at h
    injection h with h2
    exact Or.inr ⟨e', Or.inr h2.symm, p, a, by rw [hE]⟩
  · rw [hE] at h
    exact absurd h (by simp)

/-- Witness for the amended C6 at a clientset failure. -/
theorem C6_no_partial_output_before_values_stage_witness :
    (ConvertReleaseVersion envCsFail "default" "myrel" 1).ret
      = .error "get clientset: boom"
    ∧ ((ConvertReleaseVersion envCsFail "default" "myrel" 1).cwd = []
      ∨ ∃ e', ("get clientset: boom" = wrapErr "marshal config data" e'
                ∨ "get clientset: boom" = wrapErr "write values file" e')
          ∧ ∃ p a, (ConvertReleaseVersion envCsFail "default" "myrel" 1).cwd
              = [(p, a)]) :=
  ⟨rfl, C6_no_partial_output_before_values_stage envCsFail "default" "myrel" 1
    "get clientset: boom" rfl⟩

/-! ### Fixtures for C7: single-point failure injections into an
otherwise fully successful run -/

inductive FailPoint where
  | getClientsetC | listSecretsC | gunzipHeader | gunzipRead | jsonUnmarshal
  | tempDirF | mkdirAllF | writeTempFile | packageRunF | marshalMeta
  | marshalValues | marshalConfig | writeValuesFile | getClientsetL | listSecretsL

/-- Make exactly one external call fail with message `e`; the two `L`
points are exercised on the find-latest path (empty revision flag). -/
def injectFail : FailPoint → String → Env
  | .getClientsetC, e => { baseEnv relCfg with getClientset := .error e }
  | .listSecretsC, e => { baseEnv relCfg with nsSecrets := fun _ => .error e }
  | .gunzipHeader, e => { baseEnv relCfg with gunzip := fun _ => .headerErr e }
  | .gunzipRead, e => { baseEnv relCfg with gunzip := fun _ => .readErr e }
  | .jsonUnmarshal, e => { baseEnv relCfg with jsonUnmarshalRelease := fun _ => .error e }
  | .tempDirF, e => { baseEnv relCfg with tempDir := .error e }
  | .mkdirAllF, e => { baseEnv relCfg with mkdirAll := fun _ => .error e }
  | .writeTempFile, e => { baseEnv relCfg with writeFile := fun _ => .error e }
  | .packageRunF, e => { baseEnv relCfg with packageRun := fun _ => .error e }
  | .marshalMeta, e => { baseEnv relCfg with yamlMarshalMeta := fun _ => .error e }
  | .marshalValues, e =>
      { baseEnv relCfg with
        yamlMarshalKV := fun kv => if kv = [("v", "1")] then .error e else .ok [118] }
  | .marshalConfig, e =>
      { baseEnv relCfg with
        yamlMarshalKV := fun kv => if kv = [("c", "2")] then .error e else .ok [118] }
  | .writeValuesFile, e =>
      { baseEnv relCfg with
        writeFile := fun p => if p = "values.yaml" then .error e else .ok () }
  | .getClientsetL, e => { baseEnv relCfg with getClientset := .error e }
  | .listSecretsL, e => { baseEnv relCfg with nsSecrets := fun _ => .error e }

def revFlagOf : FailPoint → String
  | .getClientsetL => ""
  | .listSecretsL => ""
  | _ => "1"

/-- The top-level error message each failure produces: the original
message wrapped with each context on the way up. -/
def expectedTopError : FailPoint → String → String
  | .getClientsetC, e => wrapErr "convert release" (wrapErr "get clientset" e)
  | .listSecretsC, e => wrapErr "convert release" (wrapErr "list secrets" e)
  | .gunzipHeader, e => wrapErr "convert release" (wrapErr "parse release info from secret"
      (wrapErr "create gzip reader" e))
  | .gunzipRead, e => wrapErr "convert release" (wrapErr "parse release info from secret"
      (wrapErr "read from gzip reader" e))
  | .jsonUnmarshal, e => wrapErr "convert release" (wrapErr "parse release info from secret"
      (wrapErr "unmarshal release data" e))
  | .tempDirF, e => wrapErr "convert release" (wrapErr "create temp dir" e)
  | .mkdirAllF, e => wrapErr "convert release" (wrapErr "save release to files"
      (wrapErr "create dir /tmp/helm-release-1" e))
  | .writeTempFile, e => wrapErr "convert release" (wrapErr "save release to files"
      (wrapErr "write file /tmp/helm-release-1/d.txt" e))
  | .packageRunF, e => wrapErr "convert release" (wrapErr "package client run" e)
  | .marshalMeta, e => wrapErr "convert release" (wrapErr "save release to files"
      (wrapErr "marshal chart metadata" e))
  | .marshalValues, e => wrapErr "convert release" (wrapErr "save release to files"
      (wrapErr "marshal chart values" e))
  | .marshalConfig, e => wrapErr "convert release" (wrapErr "marshal config data" e)
  | .writeValuesFile, e => wrapErr "convert release" (wrapErr "write values file" e)
  | .getClientsetL, e => wrapErr "find latest revision" (wrapErr "get clientset" e)
  | .listSecretsL, e => wrapErr "find latest revision" (wrapErr "list secrets" e)

/-- C7: whichever external call fails, and whatever its message, the CLI
returns that message wrapped with each layer's context (never a bare
error), and the process exits with status 1. -/
theorem C7_failures_wrapped_nonzero_exit (fp : FailPoint) (e : String) :
    runRootCmd (injectFail fp e) ["myrel"] "default" (revFlagOf fp)
      = .error (expectedTopError fp e)
    ∧ InitAndExecute (injectFail fp e) ["myrel"] "default" (revFlagOf fp) = 1 := by
  cases fp <;> exact ⟨rfl, rfl⟩

/-- C8: whenever the temporary release directory is created, it is removed
again before `ConvertReleaseVersion` returns, on the success path and on
every later error path. -/
theorem C8_temp_dir_removed (env : Env) (ns rn : String) (rev : Int)
    (h : (ConvertReleaseVersion env ns rn rev).tempCreated = true) :
    (ConvertReleaseVersion env ns rn rev).tempRemoved = true := by
  rcases convertShapes env ns rn rev with
    ⟨msg, hE⟩ | ⟨msg, hE⟩ | ⟨e', p, a, hE⟩ | ⟨e', p, a, hE⟩ | ⟨c, v, p, a, rest, hE⟩ <;>
    (rw [hE] at h ⊢; all_goals first | rfl | exact Bool.noConfusion h)

/-- Witness for C8 on a fully successful conversion. -/
theorem C8_temp_dir_removed_witness :
    (ConvertReleaseVersion (baseEnv relEmptyCfg) "default" "myrel" 1).tempCreated = true
    ∧ (ConvertReleaseVersion (baseEnv relEmptyCfg) "default" "myrel" 1).tempRemoved = true :=
  ⟨rfl, C8_temp_dir_removed (baseEnv relEmptyCfg) "default" "myrel" 1 rfl⟩

/-- C9: with the store reachable, `FindLatestReleaseVersion` always
succeeds, whatever the version labels look like; and when no matching
secret has a parsable positive version label it returns revision 0 with
no error rather than reporting the release as missing. -/
theorem C9_malformed_versions_skipped (env : Env) (ns rn : String)
    (l : List Secret)
    (hcs : env.getClientset = .ok ())
    (hls : env.nsSecrets ns = .ok l) :
    (∃ v : Int, FindLatestReleaseVersion env ns rn = .ok v)
    ∧ ((∀ s ∈ l.filter (matchesSelector (findSelectorLabels rn)),
          ∀ n : Int, goAtoi (labelGet s "version") = some n → n ≤ 0) →
        FindLatestReleaseVersion env ns rn = .ok 0) := by
  constructor
  · refine ⟨scanLatest (l.filter (matchesSelector (findSelectorLabels rn))) 0, ?_⟩
    simp only [FindLatestReleaseVersion, hcs, hls]
  · intro hall
    simp only [FindLatestReleaseVersion, hcs, hls]
    rw [scanLatest_nonpos _ hall]

/-- Witness for C9 on a store holding one secret with an unparsable
version label and one with no version label. -/
theorem C9_malformed_versions_skipped_witness :
    env9.getClientset = .ok ()
    ∧ env9.nsSecrets "default" = .ok [secBad, secNoVer]
    ∧ (∃ v : Int, FindLatestReleaseVersion env9 "default" "myrel" = .ok v)
    ∧ FindLatestReleaseVersion env9 "default" "myrel" = .ok 0 := by
  have h := C9_malformed_versions_skipped env9 "default" "myrel"
    [secBad, secNoVer] rfl rfl
  refine ⟨rfl, rfl, h.1, h.2 ?_⟩
  intro s hs n hn
  have hs2 : s ∈ [secBad, secNoVer] := hs
  cases hs2 with
  | head => exact Option.noConfusion hn
  | tail _ hs3 =>
    cases hs3 with
    | head => exact Option.noConfusion hn
    | tail _ hs4 => exact absurd hs4 (List.not_mem_nil s)

/-- C10: a successful `saveReleaseToFiles` always writes
values.schema.json, for every release; when the chart has no schema the
file contains the JSON serialization of nil, the four bytes of "null". -/
theorem C10_schema_file_always_written (env : Env) (rel : HRelease)
    (destDir : String) (ws : List (String × Bytes))
    (h : saveReleaseToFiles env rel destDir = .ok ws) :
    (filepathJoin destDir "values.schema.json",
      goJsonMarshalBytes rel.Chart.Schema) ∈ ws
    ∧ (rel.Chart.Schema = none →
        (filepathJoin destDir "values.schema.json",
          [110, 117, 108, 108]) ∈ ws) := by
  simp only [saveReleaseToFiles] at h
  cases hm : env.yamlMarshalMeta rel.Chart.Metadata with
  | error e =>
      rw [hm] at h
      exact absurd h (by simp)
  | ok md =>
  rw [hm] at h
  cases hv : env.yamlMarshalKV rel.Chart.Values with
  | error e =>
      rw [hv] at h
      exact absurd h (by simp)
  | ok vals =>
  rw [hv] at h
  have hws := writeChartFiles_ok env destDir _ _ h
  subst hws
  constructor
  · refine List.mem_map.mpr
      ⟨("values.schema.json", goJsonMarshalBytes rel.Chart.Schema), ?_, rfl⟩
    simp
  · intro hnone
    rw [hnone]
    refine List.mem_map.mpr
      ⟨("values.schema.json", goJsonMarshalBytes none), ?_, rfl⟩
    simp

/-- Witness for C10 on a schema-less release: values.schema.json is
written and holds the bytes of "null". -/
theorem C10_schema_file_always_written_witness :
    saveReleaseToFiles (baseEnv relEmptyCfg) relEmptyCfg "/tmp/helm-release-1"
      = .ok [("/tmp/helm-release-1/d.txt", [7]),
             ("/tmp/helm-release-1/templates/t.yaml", [8]),
             ("/tmp/helm-release-1/Chart.yaml", [109]),
             ("/tmp/helm-release-1/values.yaml", [118]),
             ("/tmp/helm-release-1/values.schema.json", [110, 117, 108, 108])]
    ∧ relEmptyCfg.Chart.Schema = none
    ∧ ("/tmp/helm-release-1/values.schema.json", [110, 117, 108, 108])
        ∈ [("/tmp/helm-release-1/d.txt", ([7] : Bytes)),
           ("/tmp/helm-release-1/templates/t.yaml", [8]),
           ("/tmp/helm-release-1/Chart.yaml", [109]),
           ("/tmp/helm-release-1/values.yaml", [118]),
           ("/tmp/helm-release-1/values.schema.json", [110, 117, 108, 108])] :=
  ⟨rfl, rfl,
   (C10_schema_file_always_written (baseEnv relEmptyCfg) relEmptyCfg
      "/tmp/helm-release-1" _ rfl).2 rfl⟩

end Release2Chart
